import Mathlib

/-!
Shallow embedding of the Solana state-extensions library (src/lib.rs).

Buffers (account data) are lists of bytes modelled as natural numbers.
Fallible host operations (rent parsing, lamport transfer) are modelled by
explicit parameters; Rust panics (out-of-bounds indexing and slicing) are
modelled by a dedicated result constructor.
-/

set_option maxHeartbeats 1000000

namespace StateExtensions

/-- Result of running a piece of code that may hit a Rust panic
(out-of-bounds index or slice). -/
inductive PanicOr (α : Type) : Type
  | panicked : PanicOr α
  | ok (val : α) : PanicOr α
  deriving DecidableEq, Repr

/-- pub const EXT_META_LEN: usize = 4; -/
def EXT_META_LEN : Nat := 4

/-- enum StateExtensionError (repr u8): discriminants 0 and 1. -/
inductive StateExtensionError : Type
  | ExtensionDataAleadyZerod
  | ExtensionDataIsNotInitialized
  deriving DecidableEq, Repr

/-- The From impl turns the error into ProgramError::Custom(e as u32);
these are the repr discriminants. -/
def StateExtensionError.toCode : StateExtensionError → Nat
  | .ExtensionDataAleadyZerod => 0
  | .ExtensionDataIsNotInitialized => 1

/-- The ProgramError values this library can produce or propagate.
rentError stands for a failure of Rent::from_account_info, transferFailed
for a failed lamport transfer (both are host errors propagated as-is). -/
inductive ProgError : Type
  | illegalOwner
  | invalidAccountData
  | rentError
  | transferFailed
  | custom (code : Nat)
  deriving DecidableEq, Repr

/-- enum ExtensionState { Zerod = 0, Initialized = 1 } (repr u8). -/
inductive ExtensionState : Type
  | Zerod
  | Initialized
  deriving DecidableEq, Repr

/-- The repr(u8) discriminant of ExtensionState, used by the raw
positional cast (Initialized as u8) in update_extension. -/
def ExtensionState.reprU8 : ExtensionState → Nat
  | .Zerod => 0
  | .Initialized => 1

/-- impl ExtensionEnum for ExtensionState: fn as_u8. Note the mapping is
the reverse of the repr discriminants. -/
def ExtensionState.as_u8 : ExtensionState → Nat
  | .Initialized => 0
  | .Zerod => 1

/-- impl ExtensionEnum for ExtensionState: fn from_u8. -/
def ExtensionState.from_u8 : Nat → Option ExtensionState
  | 0 => some .Initialized
  | 1 => some .Zerod
  | _ => none

/-- A concrete Extension type: its type tag (fn ext_type) and its
constant byte length LEN (a u16 in the source). -/
structure Ext : Type where
  extType : Nat
  LEN : Nat
  deriving DecidableEq, Repr

/-- fn ext_with_meta_len() = LEN + EXT_META_LEN. -/
def Ext.ext_with_meta_len (E : Ext) : Nat := E.LEN + EXT_META_LEN

/-- unsafe fn unpack: fails (InvalidAccountData) unless the slice length
equals LEN; otherwise reinterprets the bytes as the value.  The value is
modelled as the byte slice itself. -/
def Ext.unpack (E : Ext) (bytes : List Nat) : Option (List Nat) :=
  if bytes.length = E.LEN then some bytes else none

/-- struct ExtensionInfo: decoded payload, byte offset of the entry
header, decoded lifecycle state. -/
structure ExtensionInfo : Type where
  ext : List Nat
  position : Nat
  state : ExtensionState
  deriving DecidableEq, Repr

/-- The constants of a StateExtension impl: BASE_STATE_LEN, the owner
program id (modelled as a number) and the 8-byte extension start marker.
MAX_EXTENSIONS exists in the trait but is never read by any operation. -/
structure StateExt : Type where
  BASE_STATE_LEN : Nat
  OWNER_PROGRAM : Nat
  EXT_START_MARKER : List Nat
  deriving DecidableEq, Repr

/-- fn len() = BASE_STATE_LEN. -/
def StateExt.len (S : StateExt) : Nat := S.BASE_STATE_LEN

/-- fn check_ext_marker: slice equality with EXT_START_MARKER. -/
def StateExt.check_ext_marker (S : StateExt) (bytes : List Nat) : Bool :=
  bytes = S.EXT_START_MARKER

/-- An account: owner program id and data bytes. -/
structure AccountInfo : Type where
  owner : Nat
  data : List Nat
  deriving DecidableEq, Repr

/-- Rust slice get(a..b): Some of the subslice when a <= b <= len. -/
def sliceGet (l : List Nat) (a b : Nat) : Option (List Nat) :=
  if a ≤ b ∧ b ≤ l.length then some ((l.drop a).take (b - a)) else none

/-- u16::to_le_bytes of a length value. -/
def leBytes2 (n : Nat) : List Nat := [n % 256, n / 256 % 256]

/-- sol_memcpy(dst[off..], src, src.len()): overwrite src.length bytes of
l starting at off (callers only reach this with off + src.length within
bounds). -/
def writeAt (l : List Nat) (off : Nat) (src : List Nat) : List Nat :=
  l.take off ++ src ++ l.drop (off + src.length)

/-- The while loop of get_extension_from_acc_data_unchecked, phrased on
the suffix of the data that starts at the cursor (pos is the absolute
cursor value).  Per iteration the source reads:
data[cursor] (tag, in bounds thanks to the loop condition),
data[cursor+1] (state byte, a direct index that panics when out of
bounds), ExtensionState::from_u8 with the try operator (unrecognized
state makes the whole function return None), data.get(cursor+2..cursor+4)
(length, None breaks the loop, which then returns None), the slice
data[cursor+4 .. cursor+4+len] (panics when it runs past the end), and
E::unpack on that slice (Some iff its length equals LEN); when unpack
succeeds and the tag equals the sought tag byte the entry is returned,
otherwise the cursor advances by 4 + len. -/
def scanLoop (E : Ext) (sought : Nat) : Nat → List Nat → PanicOr (Option ExtensionInfo)
  | _, [] => .ok none
  | _, [_] => .panicked
  | pos, t :: s :: rest2 =>
    match ExtensionState.from_u8 s with
    | none => .ok none
    | some st =>
      match rest2 with
      | [] => .ok none
      | [_] => .ok none
      | l0 :: l1 :: rest4 =>
        if l0 + 256 * l1 ≤ rest4.length then
          match E.unpack (rest4.take (l0 + 256 * l1)) with
          | some payload =>
            if t = sought then
              .ok (some ⟨payload, pos, st⟩)
            else
              scanLoop E sought (pos + 4 + (l0 + 256 * l1)) (rest4.drop (l0 + 256 * l1))
          | none =>
            scanLoop E sought (pos + 4 + (l0 + 256 * l1)) (rest4.drop (l0 + 256 * l1))
        else .panicked
  termination_by _ rest => rest.length
  decreasing_by
    all_goals simp [List.length_drop]; omega

/-- fn get_extension_from_acc_data_unchecked: marker check (the try
operator on data.get makes an out-of-range marker slice return None,
and a non-matching marker returns None), then the scan loop starting
right after the marker. -/
def get_extension_from_acc_data_unchecked (S : StateExt) (E : Ext) (sought : Nat)
    (data : List Nat) : PanicOr (Option ExtensionInfo) :=
  match sliceGet data S.len (S.len + S.EXT_START_MARKER.length) with
  | none => .ok none
  | some m =>
    if S.check_ext_marker m then
      scanLoop E sought (S.len + S.EXT_START_MARKER.length)
        (data.drop (S.len + S.EXT_START_MARKER.length))
    else .ok none

/-- unsafe fn get_extension: owner check, then the data-length check
against BASE_STATE_LEN + marker length, then the unchecked lookup.  The
sought tag byte is ext_type.as_u8() of the passed enum value, modelled
here directly as the byte. -/
def get_extension (S : StateExt) (E : Ext) (sought : Nat)
    (acc : AccountInfo) : PanicOr (Option ExtensionInfo) :=
  if acc.owner ≠ S.OWNER_PROGRAM then .ok none
  else if acc.data.length < S.len + S.EXT_START_MARKER.length then .ok none
  else get_extension_from_acc_data_unchecked S E sought acc.data

/-- The while loop of get_extension_variants_from_acc_data_uncheked.
Per iteration: data.get(cursor) (tag; inside the loop it is always
Some), push V::from_u8(tag) when recognized, then the direct index
data[cursor+1] on the state byte (panics when out of bounds, and is
otherwise ignored), then data.get(cursor+2..cursor+4) (length; None
breaks the loop, returning what was collected so far, the current tag
included), then the cursor advances by 4 + len with no bounds check on
the payload. -/
def variantsLoop {α : Type} (V : Nat → Option α) :
    List Nat → List α → PanicOr (List α)
  | [], acc => .ok acc
  | [_], _ => .panicked
  | t :: _ :: rest2, acc =>
    match rest2 with
    | [] =>
      match V t with
      | some v => .ok (acc ++ [v])
      | none => .ok acc
    | [_] =>
      match V t with
      | some v => .ok (acc ++ [v])
      | none => .ok acc
    | l0 :: l1 :: rest4 =>
      match V t with
      | some v => variantsLoop V (rest4.drop (l0 + 256 * l1)) (acc ++ [v])
      | none => variantsLoop V (rest4.drop (l0 + 256 * l1)) acc
  termination_by rest _ => rest.length
  decreasing_by
    all_goals simp [List.length_drop]; omega

/-- fn get_extension_variants_from_acc_data_uncheked: marker check (try
operator on data.get, then equality), then the enumerate loop, wrapped
in Some at the end. -/
def get_extension_variants_from_acc_data_uncheked {α : Type} (S : StateExt)
    (V : Nat → Option α) (data : List Nat) : PanicOr (Option (List α)) :=
  match sliceGet data S.len (S.len + S.EXT_START_MARKER.length) with
  | none => .ok none
  | some m =>
    if S.check_ext_marker m then
      match variantsLoop V (data.drop (S.len + S.EXT_START_MARKER.length)) [] with
      | .panicked => .panicked
      | .ok l => .ok (some l)
    else .ok none

/-- fn get_extension_variants: owner check, then the data_len <= len()
check, then the unchecked enumeration. -/
def get_extension_variants {α : Type} (S : StateExt) (V : Nat → Option α)
    (acc : AccountInfo) : PanicOr (Option (List α)) :=
  if acc.owner ≠ S.OWNER_PROGRAM then .ok none
  else if acc.data.length ≤ S.len then .ok none
  else get_extension_variants_from_acc_data_uncheked S V acc.data

deriving instance DecidableEq for Except

/-- Result of add_extension: the account data afterwards, the amount of
lamports actually transferred (None when the transfer was not reached or
failed), and the program result. -/
structure AddResult : Type where
  newData : List Nat
  transferred : Option Nat
  result : Except ProgError Unit
  deriving DecidableEq, Repr

/-- unsafe fn add_extension.  rentOk models whether
Rent::from_account_info succeeds; minBalance is rent.minimum_balance;
transferOk tells whether the system transfer of a given lamport amount
succeeds; payload is extension.pack(), a slice of exactly LEN bytes.
Order of the source: owner check, emptiness check, length check, rent
parse, space computation, transfer, realloc (grown bytes zero-filled),
byte write at the previous end of data. -/
def add_extension (S : StateExt) (E : Ext) (acc : AccountInfo)
    (rentOk : Bool) (minBalance : Nat → Nat) (transferOk : Nat → Bool)
    (payload : List Nat) : AddResult :=
  if acc.owner ≠ S.OWNER_PROGRAM then
    ⟨acc.data, none, .error .illegalOwner⟩
  else if acc.data.length = 0 then
    ⟨acc.data, none, .error .invalidAccountData⟩
  else if acc.data.length < S.len then
    ⟨acc.data, none, .error .invalidAccountData⟩
  else if ¬ rentOk then
    ⟨acc.data, none, .error .rentError⟩
  else
    -- no_extensions = (data_len == Self::len())
    -- new_space_to_allocate
    if ¬ transferOk (minBalance (if acc.data.length = S.len then
        S.EXT_START_MARKER.length + E.ext_with_meta_len else E.ext_with_meta_len)) then
      ⟨acc.data, none, .error .transferFailed⟩
    else
      addWrite S E acc
        (minBalance (if acc.data.length = S.len then
          S.EXT_START_MARKER.length + E.ext_with_meta_len else E.ext_with_meta_len))
        (if acc.data.length = S.len then
          S.EXT_START_MARKER.length + E.ext_with_meta_len else E.ext_with_meta_len)
        payload
where
  /-- realloc by delta (zero-filled) then the buffer build and
  sol_memcpy at data.get_mut(data_len..) (the else branch of that
  get_mut returns InvalidAccountData). -/
  addWrite (S : StateExt) (E : Ext) (acc : AccountInfo) (amount delta : Nat)
      (payload : List Nat) : AddResult :=
    if acc.data.length ≤ acc.data.length + delta then
      ⟨writeAt (acc.data ++ List.replicate delta 0) acc.data.length
        ((if acc.data.length = S.len then S.EXT_START_MARKER else []) ++
          (E.extType :: ExtensionState.as_u8 .Initialized ::
            (leBytes2 E.LEN ++ payload))),
        some amount, .ok ()⟩
    else ⟨acc.data ++ List.replicate delta 0, some amount, .error .invalidAccountData⟩

/-- unsafe fn update_extension: targeted lookup; None is a no-op Ok;
Some with state != Zerod overwrites header and payload in place via
sol_memcpy at data.get_mut(position..) (when that get_mut fails the
write is silently skipped and the result is still Ok); Some with state
== Zerod fails with ExtensionDataIsNotInitialized.  The state byte
written is the raw cast ExtensionState::Initialized as u8. -/
def update_extension (S : StateExt) (E : Ext) (sought : Nat)
    (acc : AccountInfo) (payload : List Nat) :
    PanicOr (List Nat × Except ProgError Unit) :=
  match get_extension S E sought acc with
  | .panicked => .panicked
  | .ok none => .ok (acc.data, .ok ())
  | .ok (some info) =>
    if info.state ≠ ExtensionState.Zerod then
      if info.position ≤ acc.data.length then
        .ok (writeAt acc.data info.position
          (E.extType :: ExtensionState.reprU8 .Initialized ::
            (leBytes2 E.LEN ++ payload)), .ok ())
      else .ok (acc.data, .ok ())
    else
      .ok (acc.data, .error (.custom StateExtensionError.ExtensionDataIsNotInitialized.toCode))

/-- unsafe fn zero_out_extension_data: targeted lookup; None is a no-op
Ok; Some with state == Zerod zero-fills LEN bytes starting right after
the 4 meta bytes via sol_memset at data.get_mut(position + EXT_META_LEN..)
(whose None branch returns InvalidAccountData); Some with state != Zerod
fails with ExtensionDataAleadyZerod. -/
def zero_out_extension_data (S : StateExt) (E : Ext) (sought : Nat)
    (acc : AccountInfo) : PanicOr (List Nat × Except ProgError Unit) :=
  match get_extension S E sought acc with
  | .panicked => .panicked
  | .ok none => .ok (acc.data, .ok ())
  | .ok (some info) =>
    if info.state = ExtensionState.Zerod then
      if info.position + EXT_META_LEN ≤ acc.data.length then
        .ok (writeAt acc.data (info.position + EXT_META_LEN)
          (List.replicate E.LEN 0), .ok ())
      else .ok (acc.data, .error .invalidAccountData)
    else
      .ok (acc.data, .error (.custom StateExtensionError.ExtensionDataAleadyZerod.toCode))

/-! ### Wire-format building blocks used to state general theorems -/

/-- One wire-format entry: tag byte, state byte, payload (the 2-byte
little-endian length field always holds the payload length). -/
structure Entry : Type where
  tag : Nat
  state : Nat
  payload : List Nat
  deriving DecidableEq, Repr

/-- Serialization of one entry: tag, state, u16 LE length, payload. -/
def entryBytes (e : Entry) : List Nat :=
  e.tag :: e.state :: (leBytes2 e.payload.length ++ e.payload)

/-- Serialization of a sequence of entries, concatenated with no
padding. -/
def regionBytes : List Entry → List Nat
  | [] => []
  | e :: es => entryBytes e ++ regionBytes es

/-! ### Concrete fixtures for witnesses and counterexamples -/

/-- A tiny StateExtension impl: 2 base bytes, owner id 0, an 8-byte
marker. -/
def sWit : StateExt := ⟨2, 0, [1, 2, 3, 4, 5, 6, 7, 8]⟩

/-- A tiny Extension type: tag 5, LEN 2. -/
def eWit : Ext := ⟨5, 2⟩

/-- A well-formed account holding one entry with tag 5, state byte 0
(which decodes to Initialized) and payload [10, 20]. -/
def accWit : AccountInfo :=
  ⟨0, [0, 0] ++ [1, 2, 3, 4, 5, 6, 7, 8] ++ [5, 0, 2, 0, 10, 20]⟩

/-- Like accWit but the entry has state byte 1, which decodes to
Zerod. -/
def accZWit : AccountInfo :=
  ⟨0, [0, 0] ++ [1, 2, 3, 4, 5, 6, 7, 8] ++ [5, 1, 2, 0, 10, 20]⟩

/-- The StateExtension impl of the spec scenario: BASE_STATE_LEN 64. -/
def s64 : StateExt := ⟨64, 0, [8, 7, 6, 5, 4, 3, 2, 1]⟩

/-- Extension type of the first scenario add: tag 5, LEN 16. -/
def e5 : Ext := ⟨5, 16⟩

/-- Extension type of the second scenario add: tag 7, LEN 32. -/
def e7 : Ext := ⟨7, 32⟩

/-! ### Scan-loop lemmas -/

theorem drop_cons4 (a b c d n : Nat) (l : List Nat) :
    (a :: b :: c :: d :: l).drop (n + 4) = l.drop n := rfl

/-- Lifting the inversion facts of a found entry across one skipped
entry of the scan. -/
theorem found_lift (E : Ext) (sought t s l0 l1 : Nat) (rest4 : List Nat)
    (pos : Nat) (info : ExtensionInfo) (sb a0 a1 : Nat)
    (hb : l0 + 256 * l1 ≤ rest4.length)
    (hle : pos + 4 + (l0 + 256 * l1) ≤ info.position)
    (hlen : info.ext.length = E.LEN)
    (hbound : (info.position - (pos + 4 + (l0 + 256 * l1))) + 4 + E.LEN ≤
      (rest4.drop (l0 + 256 * l1)).length)
    (hdrop : (rest4.drop (l0 + 256 * l1)).drop
        (info.position - (pos + 4 + (l0 + 256 * l1))) =
      sought :: sb :: a0 :: a1 ::
        (info.ext ++ (rest4.drop (l0 + 256 * l1)).drop
          ((info.position - (pos + 4 + (l0 + 256 * l1))) + 4 + E.LEN)))
    (hsb : ExtensionState.from_u8 sb = some info.state)
    (hl : a0 + 256 * a1 = E.LEN) :
    pos ≤ info.position ∧
    info.ext.length = E.LEN ∧
    (info.position - pos) + 4 + E.LEN ≤ (t :: s :: l0 :: l1 :: rest4).length ∧
    (t :: s :: l0 :: l1 :: rest4).drop (info.position - pos) =
      sought :: sb :: a0 :: a1 ::
        (info.ext ++ (t :: s :: l0 :: l1 :: rest4).drop
          ((info.position - pos) + 4 + E.LEN)) ∧
    ExtensionState.from_u8 sb = some info.state ∧
    a0 + 256 * a1 = E.LEN := by
  rw [List.length_drop] at hbound
  rw [List.drop_drop, List.drop_drop] at hdrop
  refine ⟨by omega, hlen, ?_, ?_, hsb, hl⟩
  · simp only [List.length_cons]; omega
  · rw [show info.position - pos =
      (info.position - (pos + 4 + (l0 + 256 * l1)) + (l0 + 256 * l1)) + 4 by omega,
      drop_cons4]
    rw [show info.position - (pos + 4 + (l0 + 256 * l1)) + (l0 + 256 * l1) + 4 + 4 + E.LEN
        = (l0 + 256 * l1 + (info.position - (pos + 4 + (l0 + 256 * l1)) + 4 + E.LEN)) + 4
        by omega, drop_cons4]
    rw [show info.position - (pos + 4 + (l0 + 256 * l1)) + (l0 + 256 * l1)
        = l0 + 256 * l1 + (info.position - (pos + 4 + (l0 + 256 * l1))) by omega]
    exact hdrop

theorem scanLoop_found (E : Ext) (sought : Nat) (pos : Nat) (rest : List Nat)
    (info : ExtensionInfo) (h : scanLoop E sought pos rest = .ok (some info)) :
    ∃ sb l0 l1,
      pos ≤ info.position ∧
      info.ext.length = E.LEN ∧
      (info.position - pos) + 4 + E.LEN ≤ rest.length ∧
      rest.drop (info.position - pos) =
        sought :: sb :: l0 :: l1 ::
          (info.ext ++ rest.drop ((info.position - pos) + 4 + E.LEN)) ∧
      ExtensionState.from_u8 sb = some info.state ∧
      l0 + 256 * l1 = E.LEN := by
  match rest with
  | [] => simp [scanLoop] at h
  | [x] => simp [scanLoop] at h
  | [t, s] =>
    rw [scanLoop] at h
    cases hs : ExtensionState.from_u8 s with
    | none => rw [hs] at h; simp at h
    | some st => rw [hs] at h; simp at h
  | [t, s, y] =>
    rw [scanLoop] at h
    cases hs : ExtensionState.from_u8 s with
    | none => rw [hs] at h; simp at h
    | some st => rw [hs] at h; simp at h
  | t :: s :: l0 :: l1 :: rest4 =>
    rw [scanLoop] at h
    cases hs : ExtensionState.from_u8 s with
    | none => rw [hs] at h; simp at h
    | some st =>
      rw [hs] at h
      · simp only at h
        by_cases hb : l0 + 256 * l1 ≤ rest4.length
        · rw [if_pos hb] at h
          cases hu : E.unpack (rest4.take (l0 + 256 * l1)) with
          | some payload =>
            rw [hu] at h
            dsimp only at h
            have hpl : payload = rest4.take (l0 + 256 * l1) ∧ l0 + 256 * l1 = E.LEN := by
              unfold Ext.unpack at hu
              rw [List.length_take, min_eq_left hb] at hu
              by_cases hL : l0 + 256 * l1 = E.LEN
              · rw [if_pos hL] at hu
                exact ⟨(Option.some_inj.mp hu).symm, hL⟩
              · rw [if_neg hL] at hu; cases hu
            obtain ⟨hpay, hL⟩ := hpl
            by_cases ht : t = sought
            · rw [if_pos ht] at h
              cases info with
              | mk e p sst =>
                simp only [PanicOr.ok.injEq, Option.some.injEq,
                  ExtensionInfo.mk.injEq] at h
                obtain ⟨he, hp, hst⟩ := h
                subst he; subst hp; subst hst; subst ht; subst hpay
                refine ⟨s, l0, l1, le_refl _, ?_, ?_, ?_, hs, hL⟩
                · rw [List.length_take]; omega
                · simp only [List.length_cons]; omega
                · simp only [Nat.sub_self, List.drop_zero]
                  rw [show 0 + 4 + E.LEN = (E.LEN) + 4 by omega, drop_cons4]
                  rw [← hL, List.take_append_drop]
            · rw [if_neg ht] at h
              obtain ⟨sb, a0, a1, hle, hlen, hbound, hdrop, hsb, hl⟩ :=
                scanLoop_found E sought (pos + 4 + (l0 + 256 * l1))
                  (rest4.drop (l0 + 256 * l1)) info h
              exact ⟨sb, a0, a1,
                found_lift E sought t s l0 l1 rest4 pos info sb a0 a1
                  hb hle hlen hbound hdrop hsb hl⟩
          | none =>
            rw [hu] at h
            dsimp only at h
            obtain ⟨sb, a0, a1, hle, hlen, hbound, hdrop, hsb, hl⟩ :=
              scanLoop_found E sought (pos + 4 + (l0 + 256 * l1))
                (rest4.drop (l0 + 256 * l1)) info h
            exact ⟨sb, a0, a1,
              found_lift E sought t s l0 l1 rest4 pos info sb a0 a1
                hb hle hlen hbound hdrop hsb hl⟩
        · rw [if_neg hb] at h; simp at h
  termination_by rest.length
  decreasing_by
    all_goals simp [List.length_drop, List.length_cons]; omega

theorem take_cons4 (a b c d n : Nat) (l : List Nat) :
    (a :: b :: c :: d :: l).take (n + 4) = a :: b :: c :: d :: l.take n := rfl

theorem scanLoop_agree (E : Ext) (sought : Nat) (pos : Nat) (rest restB : List Nat)
    (info : ExtensionInfo)
    (h : scanLoop E sought pos rest = .ok (some info))
    (hlen : restB.length = rest.length)
    (htake : restB.take (info.position - pos) = rest.take (info.position - pos)) :
    scanLoop E sought pos restB =
      scanLoop E sought info.position (restB.drop (info.position - pos)) := by
  match rest with
  | [] => simp [scanLoop] at h
  | [x] => simp [scanLoop] at h
  | [t, s] =>
    rw [scanLoop] at h
    cases hs : ExtensionState.from_u8 s with
    | none => rw [hs] at h; simp at h
    | some st => rw [hs] at h; simp at h
  | [t, s, y] =>
    rw [scanLoop] at h
    cases hs : ExtensionState.from_u8 s with
    | none => rw [hs] at h; simp at h
    | some st => rw [hs] at h; simp at h
  | t :: s :: l0 :: l1 :: rest4 =>
    rw [scanLoop] at h
    cases hs : ExtensionState.from_u8 s with
    | none => rw [hs] at h; simp at h
    | some st =>
      rw [hs] at h
      simp only at h
      by_cases hb : l0 + 256 * l1 ≤ rest4.length
      · rw [if_pos hb] at h
        cases hu : E.unpack (rest4.take (l0 + 256 * l1)) with
        | some payload =>
          rw [hu] at h; dsimp only at h
          have hcond : l0 + 256 * l1 = E.LEN := by
            unfold Ext.unpack at hu
            rw [List.length_take, min_eq_left hb] at hu
            by_cases hL : l0 + 256 * l1 = E.LEN
            · exact hL
            · rw [if_neg hL] at hu; cases hu
          by_cases ht : t = sought
          · rw [if_pos ht] at h
            cases info with
            | mk e p sst =>
              simp only [PanicOr.ok.injEq, Option.some.injEq,
                ExtensionInfo.mk.injEq] at h
              obtain ⟨-, hp, -⟩ := h
              dsimp only at htake ⊢
              rw [← hp, Nat.sub_self, List.drop_zero]
          · rw [if_neg ht] at h
            obtain ⟨sb, a0, a1, hle, -, hbound, -, -, -⟩ :=
              scanLoop_found E sought (pos + 4 + (l0 + 256 * l1))
                (rest4.drop (l0 + 256 * l1)) info h
            match restB, hlen, htake with
            | [], hlen, _ => simp at hlen
            | [a], hlen, _ => simp at hlen
            | [a, b], hlen, _ => simp at hlen
            | [a, b, c], hlen, _ => simp at hlen
            | a :: b :: c :: d :: rest4B, hlen, htake =>
              rw [show info.position - pos =
                  (info.position - pos - 4) + 4 by omega,
                take_cons4, take_cons4] at htake
              injection htake with h1 htake
              injection htake with h2 htake
              injection htake with h3 htake
              injection htake with h4 htake
              rw [h1, h2, h3, h4]
              simp only [List.length_cons] at hlen
              have hb2 : l0 + 256 * l1 ≤ rest4B.length := by omega
              have hu2 : E.unpack (rest4B.take (l0 + 256 * l1)) =
                  some (rest4B.take (l0 + 256 * l1)) := by
                unfold Ext.unpack
                rw [List.length_take, min_eq_left hb2, if_pos hcond]
              rw [scanLoop, hs]
              simp only
              rw [if_pos hb2, hu2]
              dsimp only
              rw [if_neg ht]
              have htail : (rest4B.drop (l0 + 256 * l1)).take
                    (info.position - (pos + 4 + (l0 + 256 * l1))) =
                  (rest4.drop (l0 + 256 * l1)).take
                    (info.position - (pos + 4 + (l0 + 256 * l1))) := by
                rw [List.take_drop, List.take_drop,
                  show l0 + 256 * l1 + (info.position - (pos + 4 + (l0 + 256 * l1)))
                    = info.position - pos - 4 by omega, htake]
              have ih := scanLoop_agree E sought (pos + 4 + (l0 + 256 * l1))
                (rest4.drop (l0 + 256 * l1)) (rest4B.drop (l0 + 256 * l1)) info h
                (by rw [List.length_drop, List.length_drop]; omega) htail
              rw [ih, List.drop_drop,
                show l0 + 256 * l1 + (info.position - (pos + 4 + (l0 + 256 * l1)))
                  = (info.position - pos - 4) by omega,
                show info.position - pos = (info.position - pos - 4) + 4 by omega,
                drop_cons4,
                show info.position - pos - 4 + 4 - 4 = info.position - pos - 4 by omega]
        | none =>
          have hcond : ¬ l0 + 256 * l1 = E.LEN := by
            unfold Ext.unpack at hu
            rw [List.length_take, min_eq_left hb] at hu
            intro hL
            rw [if_pos hL] at hu; cases hu
          rw [hu] at h; dsimp only at h
          obtain ⟨sb, a0, a1, hle, -, hbound, -, -, -⟩ :=
            scanLoop_found E sought (pos + 4 + (l0 + 256 * l1))
              (rest4.drop (l0 + 256 * l1)) info h
          match restB, hlen, htake with
          | [], hlen, _ => simp at hlen
          | [a], hlen, _ => simp at hlen
          | [a, b], hlen, _ => simp at hlen
          | [a, b, c], hlen, _ => simp at hlen
          | a :: b :: c :: d :: rest4B, hlen, htake =>
            rw [show info.position - pos =
                (info.position - pos - 4) + 4 by omega,
              take_cons4, take_cons4] at htake
            injection htake with h1 htake
            injection htake with h2 htake
            injection htake with h3 htake
            injection htake with h4 htake
            rw [h1, h2, h3, h4]
            simp only [List.length_cons] at hlen
            have hb2 : l0 + 256 * l1 ≤ rest4B.length := by omega
            have hu2 : E.unpack (rest4B.take (l0 + 256 * l1)) = none := by
              unfold Ext.unpack
              rw [List.length_take, min_eq_left hb2, if_neg hcond]
            rw [scanLoop, hs]
            simp only
            rw [if_pos hb2, hu2]
            dsimp only
            have htail : (rest4B.drop (l0 + 256 * l1)).take
                  (info.position - (pos + 4 + (l0 + 256 * l1))) =
                (rest4.drop (l0 + 256 * l1)).take
                  (info.position - (pos + 4 + (l0 + 256 * l1))) := by
              rw [List.take_drop, List.take_drop,
                show l0 + 256 * l1 + (info.position - (pos + 4 + (l0 + 256 * l1)))
                  = info.position - pos - 4 by omega, htake]
            have ih := scanLoop_agree E sought (pos + 4 + (l0 + 256 * l1))
              (rest4.drop (l0 + 256 * l1)) (rest4B.drop (l0 + 256 * l1)) info h
              (by rw [List.length_drop, List.length_drop]; omega) htail
            rw [ih, List.drop_drop,
              show l0 + 256 * l1 + (info.position - (pos + 4 + (l0 + 256 * l1)))
                = (info.position - pos - 4) by omega,
              show info.position - pos = (info.position - pos - 4) + 4 by omega,
              drop_cons4,
              show info.position - pos - 4 + 4 - 4 = info.position - pos - 4 by omega]
      · rw [if_neg hb] at h; simp at h
  termination_by rest.length
  decreasing_by
    all_goals simp [List.length_drop, List.length_cons]; omega


/-! ### writeAt lemmas -/

theorem writeAt_length (l src : List Nat) (off : Nat)
    (h : off + src.length ≤ l.length) : (writeAt l off src).length = l.length := by
  simp [writeAt, List.length_append, List.length_take, List.length_drop]
  omega

theorem writeAt_take (l src : List Nat) (off : Nat) (h : off ≤ l.length) :
    (writeAt l off src).take off = l.take off := by
  unfold writeAt
  rw [List.append_assoc, List.take_left' (by rw [List.length_take]; omega)]

theorem writeAt_drop (l src : List Nat) (off : Nat) (h : off ≤ l.length) :
    (writeAt l off src).drop off = src ++ l.drop (off + src.length) := by
  unfold writeAt
  rw [List.append_assoc, List.drop_left' (by rw [List.length_take]; omega)]

theorem take_mono_eq (l l' : List Nat) (m n : Nat) (h : n ≤ m)
    (he : l'.take m = l.take m) : l'.take n = l.take n := by
  rw [show l'.take n = (l'.take m).take n by rw [List.take_take, min_eq_left h],
    he, List.take_take, min_eq_left h]

/-! ### Account-level inversion of a successful targeted lookup -/

theorem get_extension_found (S : StateExt) (E : Ext) (sought : Nat)
    (acc : AccountInfo) (info : ExtensionInfo)
    (h : get_extension S E sought acc = .ok (some info)) :
    acc.owner = S.OWNER_PROGRAM ∧
    S.len + S.EXT_START_MARKER.length ≤ acc.data.length ∧
    sliceGet acc.data S.len (S.len + S.EXT_START_MARKER.length) =
      some S.EXT_START_MARKER ∧
    scanLoop E sought (S.len + S.EXT_START_MARKER.length)
      (acc.data.drop (S.len + S.EXT_START_MARKER.length)) = .ok (some info) := by
  unfold get_extension at h
  by_cases ho : acc.owner = S.OWNER_PROGRAM
  · rw [if_neg (by simpa using ho)] at h
    by_cases hl : acc.data.length < S.len + S.EXT_START_MARKER.length
    · rw [if_pos hl] at h; cases h
    · rw [if_neg hl] at h
      unfold get_extension_from_acc_data_unchecked at h
      cases hm : sliceGet acc.data S.len (S.len + S.EXT_START_MARKER.length) with
      | none => rw [hm] at h; cases h
      | some m =>
        rw [hm] at h
        dsimp only at h
        by_cases hc : S.check_ext_marker m
        · rw [if_pos hc] at h
          unfold StateExt.check_ext_marker at hc
          have : m = S.EXT_START_MARKER := by simpa using hc
          subst this
          exact ⟨ho, by omega, rfl, h⟩
        · rw [if_neg hc] at h; cases h
  · rw [if_pos (by simpa using ho)] at h; cases h

/-! ### Rescanning after an in-place overwrite at the found position -/

theorem get_extension_after_overwrite (S : StateExt) (E : Ext) (sought : Nat)
    (acc : AccountInfo) (info : ExtensionInfo) (np1 : List Nat)
    (hfound : get_extension S E sought acc = .ok (some info))
    (htag : E.extType = sought)
    (hLEN : E.LEN < 65536)
    (hnp1 : np1.length = E.LEN) :
    get_extension S E sought ⟨acc.owner,
        writeAt acc.data info.position
          (E.extType :: ExtensionState.reprU8 .Initialized ::
            (leBytes2 E.LEN ++ np1))⟩ =
      .ok (some ⟨np1, info.position, .Zerod⟩) ∧
    (writeAt acc.data info.position
        (E.extType :: ExtensionState.reprU8 .Initialized ::
          (leBytes2 E.LEN ++ np1))).length = acc.data.length := by
  obtain ⟨ho, hl0, hm, hscan⟩ := get_extension_found S E sought acc info hfound
  obtain ⟨sb, l0, l1, hle, hplen, hbound, hdropEq, hsb, hl⟩ :=
    scanLoop_found E sought (S.len + S.EXT_START_MARKER.length)
      (acc.data.drop (S.len + S.EXT_START_MARKER.length)) info hscan
  rw [List.length_drop] at hbound
  have hbuf : (E.extType :: ExtensionState.reprU8 .Initialized ::
      (leBytes2 E.LEN ++ np1)).length = 4 + E.LEN := by
    simp [leBytes2, hnp1]; omega
  have hbound' : info.position + 4 + E.LEN ≤ acc.data.length := by omega
  have hoff : info.position ≤ acc.data.length := by omega
  have hwlen : (writeAt acc.data info.position
      (E.extType :: ExtensionState.reprU8 .Initialized ::
        (leBytes2 E.LEN ++ np1))).length = acc.data.length := by
    apply writeAt_length
    rw [hbuf]; omega
  refine ⟨?_, hwlen⟩
  have htakeEq : (writeAt acc.data info.position
      (E.extType :: ExtensionState.reprU8 .Initialized ::
        (leBytes2 E.LEN ++ np1))).take info.position =
      acc.data.take info.position := writeAt_take _ _ _ hoff
  have hform : (writeAt acc.data info.position
      (E.extType :: ExtensionState.reprU8 .Initialized ::
        (leBytes2 E.LEN ++ np1))).drop info.position =
      E.extType :: ExtensionState.reprU8 .Initialized ::
        (E.LEN % 256) :: (E.LEN / 256 % 256) ::
          (np1 ++ acc.data.drop (info.position + (4 + E.LEN))) := by
    rw [writeAt_drop _ _ _ hoff, hbuf]
    simp [leBytes2, List.cons_append, List.append_assoc]
  -- the marker slice is untouched
  have hm2 : sliceGet (writeAt acc.data info.position
      (E.extType :: ExtensionState.reprU8 .Initialized ::
        (leBytes2 E.LEN ++ np1))) S.len (S.len + S.EXT_START_MARKER.length) =
      some S.EXT_START_MARKER := by
    unfold sliceGet at hm ⊢
    rw [hwlen]
    by_cases hcnd : S.len ≤ S.len + S.EXT_START_MARKER.length ∧
        S.len + S.EXT_START_MARKER.length ≤ acc.data.length
    · rw [if_pos hcnd] at hm ⊢
      rw [List.take_drop] at hm ⊢
      rw [take_mono_eq _ _ info.position _ (by omega) htakeEq]
      exact hm
    · rw [if_neg hcnd] at hm; cases hm
  have hagree := scanLoop_agree E sought (S.len + S.EXT_START_MARKER.length)
    (acc.data.drop (S.len + S.EXT_START_MARKER.length))
    ((writeAt acc.data info.position
      (E.extType :: ExtensionState.reprU8 .Initialized ::
        (leBytes2 E.LEN ++ np1))).drop (S.len + S.EXT_START_MARKER.length))
    info hscan
    (by rw [List.length_drop, List.length_drop, hwlen])
    (by
      rw [List.take_drop, List.take_drop,
        show S.len + S.EXT_START_MARKER.length +
          (info.position - (S.len + S.EXT_START_MARKER.length)) = info.position by omega]
      exact congrArg (List.drop (S.len + S.EXT_START_MARKER.length)) htakeEq)
  rw [List.drop_drop,
    show S.len + S.EXT_START_MARKER.length +
      (info.position - (S.len + S.EXT_START_MARKER.length)) = info.position by omega] at hagree
  -- evaluate the scan at the rewritten entry
  have heval : scanLoop E sought info.position
      ((writeAt acc.data info.position
        (E.extType :: ExtensionState.reprU8 .Initialized ::
          (leBytes2 E.LEN ++ np1))).drop info.position) =
      .ok (some ⟨np1, info.position, .Zerod⟩) := by
    rw [hform, scanLoop]
    rw [show ExtensionState.from_u8 (ExtensionState.reprU8 .Initialized) =
      some ExtensionState.Zerod from rfl]
    simp only
    rw [show E.LEN % 256 + 256 * (E.LEN / 256 % 256) = E.LEN by omega]
    rw [if_pos (by simp [hnp1])]
    rw [show (np1 ++ acc.data.drop (info.position + (4 + E.LEN))).take E.LEN = np1 by
      rw [← hnp1]; exact List.take_left np1 _]
    rw [show E.unpack np1 = some np1 by unfold Ext.unpack; rw [if_pos hnp1]]
    dsimp only
    rw [if_pos htag]
  -- assemble through the account-level wrappers
  unfold get_extension
  rw [if_neg (by simpa using ho)]
  rw [if_neg (by dsimp only; rw [hwlen]; omega)]
  unfold get_extension_from_acc_data_unchecked
  dsimp only
  rw [hm2]
  dsimp only
  rw [if_pos (by unfold StateExt.check_ext_marker; simp)]
  rw [hagree, heval]


/-! ### Claim C9 -/

/-- C9: if the targeted lookup finds an entry for the sought tag with
state not Zerod, then update_extension succeeds and rewrites the entry
in place; a subsequent get_extension for the same tag finds the entry
with state Zerod (the written raw state byte 1 decodes to Zerod), so a
second update_extension fails with the ExtensionDataIsNotInitialized
error, while zero_out_extension_data proceeds and clears the payload. -/
theorem c9_update_makes_entry_read_as_zeroed (S : StateExt) (E : Ext) (sought : Nat)
    (acc : AccountInfo) (info : ExtensionInfo) (np1 np2 : List Nat)
    (hfound : get_extension S E sought acc = .ok (some info))
    (hstate : info.state ≠ ExtensionState.Zerod)
    (htag : E.extType = sought)
    (hLEN : E.LEN < 65536)
    (hnp1 : np1.length = E.LEN) (hnp2 : np2.length = E.LEN) :
    update_extension S E sought acc np1 =
      .ok (writeAt acc.data info.position
        (E.extType :: ExtensionState.reprU8 .Initialized ::
          (leBytes2 E.LEN ++ np1)), .ok ()) ∧
    get_extension S E sought ⟨acc.owner,
        writeAt acc.data info.position
          (E.extType :: ExtensionState.reprU8 .Initialized ::
            (leBytes2 E.LEN ++ np1))⟩ =
      .ok (some ⟨np1, info.position, ExtensionState.Zerod⟩) ∧
    update_extension S E sought ⟨acc.owner,
        writeAt acc.data info.position
          (E.extType :: ExtensionState.reprU8 .Initialized ::
            (leBytes2 E.LEN ++ np1))⟩ np2 =
      .ok (writeAt acc.data info.position
        (E.extType :: ExtensionState.reprU8 .Initialized ::
          (leBytes2 E.LEN ++ np1)),
        .error (.custom StateExtensionError.ExtensionDataIsNotInitialized.toCode)) ∧
    zero_out_extension_data S E sought ⟨acc.owner,
        writeAt acc.data info.position
          (E.extType :: ExtensionState.reprU8 .Initialized ::
            (leBytes2 E.LEN ++ np1))⟩ =
      .ok (writeAt (writeAt acc.data info.position
          (E.extType :: ExtensionState.reprU8 .Initialized ::
            (leBytes2 E.LEN ++ np1)))
        (info.position + EXT_META_LEN) (List.replicate E.LEN 0), .ok ()) := by
  obtain ⟨hget2, hwlen⟩ :=
    get_extension_after_overwrite S E sought acc info np1 hfound htag hLEN hnp1
  obtain ⟨ho, hl0, hm, hscan⟩ := get_extension_found S E sought acc info hfound
  obtain ⟨sb, l0, l1, hle, hplen, hbound, hdropEq, hsb, hl⟩ :=
    scanLoop_found E sought (S.len + S.EXT_START_MARKER.length)
      (acc.data.drop (S.len + S.EXT_START_MARKER.length)) info hscan
  rw [List.length_drop] at hbound
  have hoff : info.position ≤ acc.data.length := by omega
  refine ⟨?_, hget2, ?_, ?_⟩
  · unfold update_extension
    rw [hfound]
    dsimp only
    rw [if_pos (by simpa using hstate), if_pos hoff]
  · unfold update_extension
    rw [hget2]
    dsimp only
    rw [if_neg (by simp)]
  · unfold zero_out_extension_data
    rw [hget2]
    dsimp only
    rw [if_pos rfl]
    rw [if_pos (by rw [hwlen]; unfold EXT_META_LEN; omega)]

theorem c9_update_makes_entry_read_as_zeroed_witness :
    update_extension sWit eWit 5 accWit [7, 8] =
      .ok (writeAt accWit.data 10
        (eWit.extType :: ExtensionState.reprU8 .Initialized ::
          (leBytes2 eWit.LEN ++ [7, 8])), .ok ()) ∧
    get_extension sWit eWit 5 ⟨accWit.owner,
        writeAt accWit.data 10
          (eWit.extType :: ExtensionState.reprU8 .Initialized ::
            (leBytes2 eWit.LEN ++ [7, 8]))⟩ =
      .ok (some ⟨[7, 8], 10, ExtensionState.Zerod⟩) ∧
    update_extension sWit eWit 5 ⟨accWit.owner,
        writeAt accWit.data 10
          (eWit.extType :: ExtensionState.reprU8 .Initialized ::
            (leBytes2 eWit.LEN ++ [7, 8]))⟩ [30, 40] =
      .ok (writeAt accWit.data 10
        (eWit.extType :: ExtensionState.reprU8 .Initialized ::
          (leBytes2 eWit.LEN ++ [7, 8])),
        .error (.custom StateExtensionError.ExtensionDataIsNotInitialized.toCode)) ∧
    zero_out_extension_data sWit eWit 5 ⟨accWit.owner,
        writeAt accWit.data 10
          (eWit.extType :: ExtensionState.reprU8 .Initialized ::
            (leBytes2 eWit.LEN ++ [7, 8]))⟩ =
      .ok (writeAt (writeAt accWit.data 10
          (eWit.extType :: ExtensionState.reprU8 .Initialized ::
            (leBytes2 eWit.LEN ++ [7, 8])))
        (10 + EXT_META_LEN) (List.replicate eWit.LEN 0), .ok ()) :=
  c9_update_makes_entry_read_as_zeroed sWit eWit 5 accWit
    ⟨[10, 20], 10, .Initialized⟩ [7, 8] [30, 40]
    (by simp [get_extension, get_extension_from_acc_data_unchecked, sliceGet, scanLoop,
      sWit, eWit, accWit, StateExt.len, StateExt.check_ext_marker,
      ExtensionState.from_u8, Ext.unpack])
    (by simp) rfl (by decide) rfl rfl

/-! ### Claim C1 -/

/-- C1 (code divergence): on an entry whose decoded state is
Initialized, zero_out_extension_data fails with the "already zeroed"
error (ExtensionDataAleadyZerod, custom code 0) and leaves the data
unchanged, while on an entry whose decoded state is Zerod it clears the
payload and reports success — exactly the opposite of the claimed (and
documented) guard polarity. -/
theorem c1_zero_out_guard_inverted :
    get_extension sWit eWit 5 accWit = .ok (some ⟨[10, 20], 10, .Initialized⟩) ∧
    zero_out_extension_data sWit eWit 5 accWit =
      .ok (accWit.data, .error (.custom StateExtensionError.ExtensionDataAleadyZerod.toCode)) ∧
    get_extension sWit eWit 5 accZWit = .ok (some ⟨[10, 20], 10, .Zerod⟩) ∧
    zero_out_extension_data sWit eWit 5 accZWit =
      .ok ([0, 0] ++ [1, 2, 3, 4, 5, 6, 7, 8] ++ [5, 1, 2, 0, 0, 0], .ok ()) := by
  refine ⟨?_, ?_, ?_, ?_⟩ <;>
    simp [zero_out_extension_data, get_extension, get_extension_from_acc_data_unchecked,
      sliceGet, scanLoop, sWit, eWit, accWit, accZWit, StateExt.len,
      StateExt.check_ext_marker, ExtensionState.from_u8, Ext.unpack,
      StateExtensionError.toCode, writeAt, EXT_META_LEN]

/-! ### Claim C2 -/

/-- C2: the add path encodes the Initialized lifecycle state through
ExtensionState::as_u8, which yields raw byte 0, while the update path
encodes it through the raw positional cast (the repr discriminant),
which yields raw byte 1; on the same account the two paths therefore
write different state bytes at the same offset. -/
theorem c2_initialized_state_byte_differs_between_add_and_update :
    ExtensionState.as_u8 .Initialized = 0 ∧
    ExtensionState.reprU8 .Initialized = 1 ∧
    ExtensionState.as_u8 .Initialized ≠ ExtensionState.reprU8 .Initialized ∧
    (add_extension sWit eWit ⟨0, [0, 0]⟩ true (fun n => n) (fun _ => true)
      [10, 20]).newData =
      [0, 0] ++ [1, 2, 3, 4, 5, 6, 7, 8] ++ [5, 0, 2, 0, 10, 20] ∧
    update_extension sWit eWit 5 accWit [10, 20] =
      .ok ([0, 0] ++ [1, 2, 3, 4, 5, 6, 7, 8] ++ [5, 1, 2, 0, 10, 20], .ok ()) := by
  refine ⟨rfl, rfl, by decide, by decide, ?_⟩
  simp [update_extension, get_extension, get_extension_from_acc_data_unchecked,
    sliceGet, scanLoop, sWit, eWit, accWit, StateExt.len,
    StateExt.check_ext_marker, ExtensionState.from_u8, Ext.unpack, writeAt,
    ExtensionState.reprU8, leBytes2]

/-! ### Claim C3 -/

/-- C3 (code divergence): a buffer cut off right after a tag byte makes
both scan paths read the state byte with a direct out-of-bounds index,
a panic; and a payload shorter than its declared length makes the
targeted lookup slice past the end of the buffer, a panic — instead of
stopping and returning the prior entries.  Truncation inside the length
field, by contrast, is handled without a failure. -/
theorem c3_truncated_entry_panics :
    get_extension_from_acc_data_unchecked sWit eWit 5
      ([0, 0] ++ [1, 2, 3, 4, 5, 6, 7, 8] ++ [5]) = .panicked ∧
    get_extension_variants_from_acc_data_uncheked sWit (fun t => some t)
      ([0, 0] ++ [1, 2, 3, 4, 5, 6, 7, 8] ++ [5]) = .panicked ∧
    get_extension_from_acc_data_unchecked sWit eWit 5
      ([0, 0] ++ [1, 2, 3, 4, 5, 6, 7, 8] ++ [5, 0, 10, 0, 1, 2]) = .panicked ∧
    get_extension_variants_from_acc_data_uncheked sWit (fun t => some t)
      ([0, 0] ++ [1, 2, 3, 4, 5, 6, 7, 8] ++ [5, 0, 10, 0, 1, 2]) =
      .ok (some [5]) := by
  refine ⟨?_, ?_, ?_, ?_⟩ <;>
    simp [get_extension_from_acc_data_unchecked,
      get_extension_variants_from_acc_data_uncheked, sliceGet, scanLoop,
      variantsLoop, sWit, eWit, StateExt.len, StateExt.check_ext_marker,
      ExtensionState.from_u8, Ext.unpack]

/-! ### add_extension on the success path -/

theorem writeAt_exact_fit (l x : List Nat) (d : Nat) (hx : x.length = d) :
    writeAt (l ++ List.replicate d 0) l.length x = l ++ x := by
  unfold writeAt
  rw [List.take_left, hx, ← List.drop_drop, List.drop_left]
  simp

/-- When every precondition holds, add_extension transfers the rent
minimum for the newly reserved space and appends (marker when first,
then) tag, state byte as_u8(Initialized) = 0, LE length, payload at the
previous end of data. -/
theorem add_extension_success (S : StateExt) (E : Ext) (acc : AccountInfo)
    (minB : Nat → Nat) (transferOk : Nat → Bool) (payload : List Nat)
    (ho : acc.owner = S.OWNER_PROGRAM) (hne : acc.data.length ≠ 0)
    (hlen : S.len ≤ acc.data.length)
    (hT : transferOk (minB (if acc.data.length = S.len
      then S.EXT_START_MARKER.length + E.ext_with_meta_len
      else E.ext_with_meta_len)) = true)
    (hp : payload.length = E.LEN) :
    add_extension S E acc true minB transferOk payload =
      ⟨acc.data ++ ((if acc.data.length = S.len then S.EXT_START_MARKER else []) ++
          (E.extType :: ExtensionState.as_u8 .Initialized ::
            (leBytes2 E.LEN ++ payload))),
        some (minB (if acc.data.length = S.len
          then S.EXT_START_MARKER.length + E.ext_with_meta_len
          else E.ext_with_meta_len)),
        .ok ()⟩ := by
  unfold add_extension add_extension.addWrite
  rw [if_neg (by simp [ho]), if_neg hne, if_neg (by omega),
    if_neg (by simp), if_neg (by simp [hT]), if_pos (by omega)]
  have hbuf : ((if acc.data.length = S.len then S.EXT_START_MARKER else []) ++
      (E.extType :: ExtensionState.as_u8 .Initialized ::
        (leBytes2 E.LEN ++ payload))).length =
      (if acc.data.length = S.len
        then S.EXT_START_MARKER.length + E.ext_with_meta_len
        else E.ext_with_meta_len) := by
    by_cases hE : acc.data.length = S.len <;>
      simp [hE, leBytes2, hp, Ext.ext_with_meta_len, EXT_META_LEN]
  rw [writeAt_exact_fit _ _ _ hbuf]

/-! ### Claim C4 -/

/-- C4 counterexample: with the identity as the rent primitive, a first
add on a 2-byte base buffer (prospective total size 2 + 14 = 16)
transfers minimum_balance(14) = 14, the rent for the newly reserved
space only, not minimum_balance(16) = 16, the rent for the size after
growth — so the transferred amount is not the minimum balance of the
prospective new total size. -/
theorem c4_rent_charged_on_delta_counterexample :
    (add_extension sWit eWit ⟨0, [0, 0]⟩ true (fun n => n) (fun _ => true)
      [10, 20]).transferred = some 14 ∧
    (fun n => n) (([0, 0] : List Nat).length +
      (sWit.EXT_START_MARKER.length + eWit.ext_with_meta_len)) = 16 ∧
    (14 : Nat) ≠ 16 := by decide

/-- C4 amended: the amount transferred by add_extension is the rent
minimum balance of the newly reserved space (marker length plus entry
size on a first add, entry size alone otherwise), not of the total size
after growth. -/
theorem c4_rent_is_minimum_balance_of_new_space (S : StateExt) (E : Ext)
    (acc : AccountInfo) (rentOk : Bool) (minB : Nat → Nat)
    (transferOk : Nat → Bool) (payload : List Nat) (a : Nat)
    (h : (add_extension S E acc rentOk minB transferOk payload).transferred = some a) :
    a = minB (if acc.data.length = S.len
      then S.EXT_START_MARKER.length + E.ext_with_meta_len
      else E.ext_with_meta_len) := by
  unfold add_extension add_extension.addWrite at h
  split_ifs at h <;> simp_all

theorem c4_rent_is_minimum_balance_of_new_space_witness :
    (14 : Nat) = (fun n => n)
      (if ([0, 0] : List Nat).length = sWit.len
        then sWit.EXT_START_MARKER.length + eWit.ext_with_meta_len
        else eWit.ext_with_meta_len) :=
  c4_rent_is_minimum_balance_of_new_space sWit eWit ⟨0, [0, 0]⟩ true
    (fun n => n) (fun _ => true) [10, 20] 14 (by decide)

/-! ### Claim C7 -/

/-- C7: inside add_extension the transfer precedes the realloc and the
byte write; when the transfer fails (and the earlier checks pass), the
function returns the transfer failure with the buffer bytes completely
unchanged and nothing transferred. -/
theorem c7_failed_transfer_leaves_buffer_unchanged (S : StateExt) (E : Ext)
    (acc : AccountInfo) (minB : Nat → Nat) (transferOk : Nat → Bool)
    (payload : List Nat)
    (ho : acc.owner = S.OWNER_PROGRAM)
    (hne : acc.data.length ≠ 0)
    (hlen : S.len ≤ acc.data.length)
    (hT : transferOk (minB (if acc.data.length = S.len
      then S.EXT_START_MARKER.length + E.ext_with_meta_len
      else E.ext_with_meta_len)) = false) :
    add_extension S E acc true minB transferOk payload =
      ⟨acc.data, none, .error .transferFailed⟩ := by
  unfold add_extension
  rw [if_neg (by simp [ho]), if_neg hne, if_neg (by omega),
    if_neg (by simp), if_pos (by simp [hT])]

theorem c7_failed_transfer_leaves_buffer_unchanged_witness :
    add_extension sWit eWit ⟨0, [0, 0]⟩ true (fun n => n) (fun _ => false)
      [10, 20] = ⟨[0, 0], none, .error .transferFailed⟩ :=
  c7_failed_transfer_leaves_buffer_unchanged sWit eWit ⟨0, [0, 0]⟩
    (fun n => n) (fun _ => false) [10, 20] rfl (by decide) (by decide) rfl

/-! ### Claim C8 -/

/-- C8: starting from a 64-byte buffer (BASE_STATE_LEN = 64), adding an
extension with tag 5 and LEN 16 yields a 92-byte buffer with the marker
at bytes [64:72], the tag byte 5 at offset 72, LE(16) at bytes [74:76]
and the payload at bytes [76:92]; a second add with tag 7 and LEN 32 on
that buffer yields a 128-byte buffer with the marker unchanged and the
new entry starting at offset 92. -/
theorem c8_concrete_layout_scenario (minB : Nat → Nat) (p1 p2 : List Nat)
    (h1 : p1.length = 16) (h2 : p2.length = 32) :
    (add_extension s64 e5 ⟨0, List.replicate 64 0⟩ true minB (fun _ => true)
        p1).result = .ok () ∧
    (add_extension s64 e5 ⟨0, List.replicate 64 0⟩ true minB (fun _ => true)
        p1).newData.length = 92 ∧
    ((add_extension s64 e5 ⟨0, List.replicate 64 0⟩ true minB (fun _ => true)
        p1).newData.drop 64).take 8 = s64.EXT_START_MARKER ∧
    (add_extension s64 e5 ⟨0, List.replicate 64 0⟩ true minB (fun _ => true)
        p1).newData.get? 72 = some 5 ∧
    ((add_extension s64 e5 ⟨0, List.replicate 64 0⟩ true minB (fun _ => true)
        p1).newData.drop 74).take 2 = leBytes2 16 ∧
    ((add_extension s64 e5 ⟨0, List.replicate 64 0⟩ true minB (fun _ => true)
        p1).newData.drop 76).take 16 = p1 ∧
    (add_extension s64 e7
      ⟨0, (add_extension s64 e5 ⟨0, List.replicate 64 0⟩ true minB
        (fun _ => true) p1).newData⟩
      true minB (fun _ => true) p2).newData.length = 128 ∧
    ((add_extension s64 e7
      ⟨0, (add_extension s64 e5 ⟨0, List.replicate 64 0⟩ true minB
        (fun _ => true) p1).newData⟩
      true minB (fun _ => true) p2).newData.drop 64).take 8 =
      s64.EXT_START_MARKER ∧
    (add_extension s64 e7
      ⟨0, (add_extension s64 e5 ⟨0, List.replicate 64 0⟩ true minB
        (fun _ => true) p1).newData⟩
      true minB (fun _ => true) p2).newData.drop 92 =
      e7.extType :: ExtensionState.as_u8 .Initialized ::
        (leBytes2 e7.LEN ++ p2) := by
  have hadd1 := add_extension_success s64 e5 ⟨0, List.replicate 64 0⟩ minB
    (fun _ => true) p1 rfl (by simp) (by simp [s64, StateExt.len]) rfl h1
  rw [hadd1]
  dsimp only
  rw [if_pos (by simp [s64, StateExt.len])]
  have hd1 : (List.replicate 64 (0 : Nat) ++ (s64.EXT_START_MARKER ++
      (e5.extType :: ExtensionState.as_u8 .Initialized ::
        (leBytes2 e5.LEN ++ p1)))).length = 92 := by
    simp [s64, e5, leBytes2, h1]
  have hadd2 := add_extension_success s64 e7
    ⟨0, List.replicate 64 (0 : Nat) ++ (s64.EXT_START_MARKER ++
      (e5.extType :: ExtensionState.as_u8 .Initialized ::
        (leBytes2 e5.LEN ++ p1)))⟩ minB
    (fun _ => true) p2 rfl (by simp [hd1]) (by simp [hd1, s64, StateExt.len]) rfl h2
  rw [hadd2]
  dsimp only
  rw [if_neg (by simp [hd1, s64, StateExt.len])]
  refine ⟨rfl, hd1, ?_, ?_, ?_, ?_, ?_, ?_, ?_⟩
  · rfl
  · rfl
  · rfl
  · rw [show (76 : Nat) = (List.replicate 64 (0 : Nat) ++ s64.EXT_START_MARKER).length + 4
        by simp [s64], ← List.append_assoc, List.drop_append]
    rw [show (e5.extType :: ExtensionState.as_u8 .Initialized ::
        (leBytes2 e5.LEN ++ p1)).drop 4 = p1 from rfl, ← h1, List.take_length]
  · simp [hd1, s64, e5, e7, leBytes2, h1, h2]
  · rw [List.append_assoc,
      List.drop_left' (show (List.replicate 64 (0 : Nat)).length = 64 by simp),
      List.append_assoc, List.take_left' (by simp [s64])]
  · rw [List.drop_left' hd1]
    simp

theorem c8_concrete_layout_scenario_witness :
    (add_extension s64 e5 ⟨0, List.replicate 64 0⟩ true (fun n => n)
        (fun _ => true) (List.replicate 16 9)).result = .ok () ∧
    (add_extension s64 e5 ⟨0, List.replicate 64 0⟩ true (fun n => n)
        (fun _ => true) (List.replicate 16 9)).newData.length = 92 ∧
    ((add_extension s64 e5 ⟨0, List.replicate 64 0⟩ true (fun n => n)
        (fun _ => true) (List.replicate 16 9)).newData.drop 64).take 8 =
      s64.EXT_START_MARKER ∧
    (add_extension s64 e5 ⟨0, List.replicate 64 0⟩ true (fun n => n)
        (fun _ => true) (List.replicate 16 9)).newData.get? 72 = some 5 ∧
    ((add_extension s64 e5 ⟨0, List.replicate 64 0⟩ true (fun n => n)
        (fun _ => true) (List.replicate 16 9)).newData.drop 74).take 2 =
      leBytes2 16 ∧
    ((add_extension s64 e5 ⟨0, List.replicate 64 0⟩ true (fun n => n)
        (fun _ => true) (List.replicate 16 9)).newData.drop 76).take 16 =
      List.replicate 16 9 ∧
    (add_extension s64 e7
      ⟨0, (add_extension s64 e5 ⟨0, List.replicate 64 0⟩ true (fun n => n)
        (fun _ => true) (List.replicate 16 9)).newData⟩
      true (fun n => n) (fun _ => true) (List.replicate 32 3)).newData.length = 128 ∧
    ((add_extension s64 e7
      ⟨0, (add_extension s64 e5 ⟨0, List.replicate 64 0⟩ true (fun n => n)
        (fun _ => true) (List.replicate 16 9)).newData⟩
      true (fun n => n) (fun _ => true) (List.replicate 32 3)).newData.drop 64).take 8 =
      s64.EXT_START_MARKER ∧
    (add_extension s64 e7
      ⟨0, (add_extension s64 e5 ⟨0, List.replicate 64 0⟩ true (fun n => n)
        (fun _ => true) (List.replicate 16 9)).newData⟩
      true (fun n => n) (fun _ => true) (List.replicate 32 3)).newData.drop 92 =
      e7.extType :: ExtensionState.as_u8 .Initialized ::
        (leBytes2 e7.LEN ++ List.replicate 32 3) :=
  c8_concrete_layout_scenario (fun n => n) (List.replicate 16 9)
    (List.replicate 32 3) rfl rfl

/-! ### Claim C6 -/

/-- C6: update_extension has exactly three behaviors, decided by the
targeted lookup: no entry found is a no-op success; an entry with state
Zerod fails with the "not initialized" error and mutates nothing; an
entry with any other state gets its 4-byte header and payload
overwritten in place at the entry's original offset, leaving the
buffer's length (and hence the entry's size) unchanged. -/
theorem c6_update_three_cases (S : StateExt) (E : Ext) (sought : Nat)
    (acc : AccountInfo) (np : List Nat) (hnp : np.length = E.LEN) :
    (get_extension S E sought acc = .ok none →
      update_extension S E sought acc np = .ok (acc.data, .ok ())) ∧
    (∀ info, get_extension S E sought acc = .ok (some info) →
      info.state = ExtensionState.Zerod →
      update_extension S E sought acc np =
        .ok (acc.data,
          .error (.custom StateExtensionError.ExtensionDataIsNotInitialized.toCode))) ∧
    (∀ info, get_extension S E sought acc = .ok (some info) →
      info.state ≠ ExtensionState.Zerod →
      update_extension S E sought acc np =
        .ok (writeAt acc.data info.position
          (E.extType :: ExtensionState.reprU8 .Initialized ::
            (leBytes2 E.LEN ++ np)), .ok ()) ∧
      (writeAt acc.data info.position
        (E.extType :: ExtensionState.reprU8 .Initialized ::
          (leBytes2 E.LEN ++ np))).length = acc.data.length) := by
  refine ⟨?_, ?_, ?_⟩
  · intro h
    unfold update_extension
    rw [h]
  · intro info h hz
    unfold update_extension
    rw [h]
    dsimp only
    rw [if_neg (by simp [hz])]
  · intro info h hz
    obtain ⟨ho, hl0, hm, hscan⟩ := get_extension_found S E sought acc info h
    obtain ⟨sb, l0, l1, hle, hplen, hbound, hdropEq, hsb, hl⟩ :=
      scanLoop_found E sought (S.len + S.EXT_START_MARKER.length)
        (acc.data.drop (S.len + S.EXT_START_MARKER.length)) info hscan
    rw [List.length_drop] at hbound
    have hoff : info.position ≤ acc.data.length := by omega
    constructor
    · unfold update_extension
      rw [h]
      dsimp only
      rw [if_pos (by simpa using hz), if_pos hoff]
    · apply writeAt_length
      simp [leBytes2, hnp]
      omega

theorem c6_update_three_cases_witness :
    update_extension sWit eWit 5 accWit [7, 8] =
      .ok (writeAt accWit.data 10
        (eWit.extType :: ExtensionState.reprU8 .Initialized ::
          (leBytes2 eWit.LEN ++ [7, 8])), .ok ()) ∧
    (writeAt accWit.data 10
      (eWit.extType :: ExtensionState.reprU8 .Initialized ::
        (leBytes2 eWit.LEN ++ [7, 8]))).length = accWit.data.length :=
  (c6_update_three_cases sWit eWit 5 accWit [7, 8] rfl).2.2
    ⟨[10, 20], 10, .Initialized⟩
    (by simp [get_extension, get_extension_from_acc_data_unchecked, sliceGet,
      scanLoop, sWit, eWit, accWit, StateExt.len, StateExt.check_ext_marker,
      ExtensionState.from_u8, Ext.unpack])
    (by simp)

/-! ### Claim C10 -/

/-- C10: when the buffer's recorded owner is not the expected owner
program, both read operations return "not found"/"no extensions" (None)
rather than an error — the same answers they give for a buffer of
exactly BASE_STATE_LEN bytes that has no extension region — while
add_extension alone reports IllegalOwner. -/
theorem c10_foreign_owner_reads_none (S : StateExt) (E : Ext) (sought : Nat)
    {α : Type} (V : Nat → Option α) (acc accBase : AccountInfo)
    (rentOk : Bool) (minB : Nat → Nat) (transferOk : Nat → Bool)
    (payload : List Nat)
    (hforeign : acc.owner ≠ S.OWNER_PROGRAM)
    (hbase : accBase.owner = S.OWNER_PROGRAM)
    (hblen : accBase.data.length = S.BASE_STATE_LEN)
    (hmark : S.EXT_START_MARKER.length = 8) :
    get_extension S E sought acc = .ok none ∧
    get_extension_variants S V acc = .ok none ∧
    get_extension S E sought accBase = .ok none ∧
    get_extension_variants S V accBase = .ok none ∧
    add_extension S E acc rentOk minB transferOk payload =
      ⟨acc.data, none, .error .illegalOwner⟩ := by
  refine ⟨?_, ?_, ?_, ?_, ?_⟩
  · unfold get_extension
    rw [if_pos (by simpa using hforeign)]
  · unfold get_extension_variants
    rw [if_pos (by simpa using hforeign)]
  · unfold get_extension
    rw [if_neg (by simp [hbase])]
    rw [if_pos (by simp [hblen, StateExt.len, hmark])]
  · unfold get_extension_variants
    rw [if_neg (by simp [hbase])]
    rw [if_pos (by simp [hblen, StateExt.len])]
  · unfold add_extension
    rw [if_pos (by simpa using hforeign)]

theorem c10_foreign_owner_reads_none_witness :
    get_extension sWit eWit 5 ⟨99, accWit.data⟩ = .ok none ∧
    get_extension_variants sWit (fun t => some t) ⟨99, accWit.data⟩ = .ok none ∧
    get_extension sWit eWit 5 ⟨0, [0, 0]⟩ = .ok none ∧
    get_extension_variants sWit (fun t => some t) ⟨0, [0, 0]⟩ = .ok none ∧
    add_extension sWit eWit ⟨99, accWit.data⟩ true (fun n => n) (fun _ => true)
      [10, 20] = ⟨accWit.data, none, .error .illegalOwner⟩ :=
  c10_foreign_owner_reads_none sWit eWit 5 (fun t => some t) ⟨99, accWit.data⟩
    ⟨0, [0, 0]⟩ true (fun n => n) (fun _ => true) [10, 20]
    (by decide) rfl rfl rfl

/-! ### Claim C5 -/

theorem regionBytes_append (xs ys : List Entry) :
    regionBytes (xs ++ ys) = regionBytes xs ++ regionBytes ys := by
  induction xs with
  | nil => simp [regionBytes]
  | cons x xs ih => simp [regionBytes, ih]

theorem variantsLoop_region {α : Type} (V : Nat → Option α) (es : List Entry)
    (acc : List α) (hsz : ∀ e ∈ es, e.payload.length < 65536) :
    variantsLoop V (regionBytes es) acc =
      .ok (acc ++ es.filterMap (fun e => V e.tag)) := by
  induction es generalizing acc with
  | nil => simp [regionBytes, variantsLoop]
  | cons e es ih =>
    have hp := hsz e (by simp)
    have hform : regionBytes (e :: es) =
        e.tag :: e.state :: (e.payload.length % 256) ::
          (e.payload.length / 256 % 256) :: (e.payload ++ regionBytes es) := by
      simp [regionBytes, entryBytes, leBytes2, List.cons_append, List.append_assoc]
    rw [hform, variantsLoop]
    rw [show e.payload.length % 256 + 256 * (e.payload.length / 256 % 256) =
      e.payload.length by omega]
    rw [List.drop_left]
    cases hV : V e.tag with
    | some v =>
      dsimp only
      rw [ih _ (fun x hx => hsz x (List.mem_cons_of_mem e hx))]
      simp [List.filterMap_cons, hV]
    | none =>
      dsimp only
      rw [ih _ (fun x hx => hsz x (List.mem_cons_of_mem e hx))]
      simp [List.filterMap_cons, hV]

theorem scanLoop_region_aborts (E : Ext) (sought : Nat) (es : List Entry)
    (bad : Entry) (tail : List Nat) (pos : Nat)
    (hgood : ∀ e ∈ es, (ExtensionState.from_u8 e.state).isSome ∧
      ¬(e.tag = sought ∧ e.payload.length = E.LEN) ∧ e.payload.length < 65536)
    (hbad : ExtensionState.from_u8 bad.state = none) :
    scanLoop E sought pos (regionBytes es ++ (entryBytes bad ++ tail)) =
      .ok none := by
  induction es generalizing pos with
  | nil =>
    rw [regionBytes, List.nil_append]
    rw [show entryBytes bad ++ tail = bad.tag :: bad.state ::
      ((leBytes2 bad.payload.length ++ bad.payload) ++ tail) by
        simp [entryBytes, List.cons_append, List.append_assoc]]
    rw [scanLoop, hbad]
  | cons e es ih =>
    obtain ⟨hsome, hnot, hp⟩ := hgood e (by simp)
    obtain ⟨st, hst⟩ := Option.isSome_iff_exists.mp hsome
    have hform : regionBytes (e :: es) ++ (entryBytes bad ++ tail) =
        e.tag :: e.state :: (e.payload.length % 256) ::
          (e.payload.length / 256 % 256) ::
            (e.payload ++ (regionBytes es ++ (entryBytes bad ++ tail))) := by
      simp [regionBytes, entryBytes, leBytes2, List.cons_append, List.append_assoc]
    rw [hform, scanLoop, hst]
    dsimp only
    rw [show e.payload.length % 256 + 256 * (e.payload.length / 256 % 256) =
      e.payload.length by omega]
    rw [if_pos (by simp)]
    by_cases hpl : e.payload.length = E.LEN
    · rw [show E.unpack ((e.payload ++
          (regionBytes es ++ (entryBytes bad ++ tail))).take e.payload.length) =
          some e.payload by
        rw [List.take_left]
        unfold Ext.unpack
        rw [if_pos hpl]]
      dsimp only
      rw [if_neg (fun h => hnot ⟨h, hpl⟩), List.drop_left]
      first
        | exact ih (fun x hx => hgood x (List.mem_cons_of_mem e hx)) _
        | exact ih _ (fun x hx => hgood x (List.mem_cons_of_mem e hx))
    · rw [show E.unpack ((e.payload ++
          (regionBytes es ++ (entryBytes bad ++ tail))).take e.payload.length) =
          none by
        rw [List.take_left]
        unfold Ext.unpack
        rw [if_neg hpl]]
      dsimp only
      rw [List.drop_left]
      first
        | exact ih (fun x hx => hgood x (List.mem_cons_of_mem e hx)) _
        | exact ih _ (fun x hx => hgood x (List.mem_cons_of_mem e hx))

/-- C5: the two scan paths are asymmetric.  On a buffer whose extension
region holds some well-formed non-matching entries, then an entry whose
state byte is not a recognized lifecycle value, then anything further
(here: arbitrary further entries, possibly matching), the targeted
lookup aborts the whole scan at the unrecognized state byte and reports
"not found", never returning entries located after it — while the
enumerate-all-tags path on the same buffer never validates state bytes
and returns every recognized tag, in append order, bad entry and later
entries included. -/
theorem c5_targeted_strict_enumeration_lenient (S : StateExt) (E : Ext)
    (sought : Nat) {α : Type} (V : Nat → Option α) (base : List Nat)
    (es rest : List Entry) (bad : Entry)
    (hbase : base.length = S.BASE_STATE_LEN)
    (hgood : ∀ e ∈ es, (ExtensionState.from_u8 e.state).isSome ∧
      ¬(e.tag = sought ∧ e.payload.length = E.LEN))
    (hsz : ∀ e ∈ es ++ bad :: rest, e.payload.length < 65536)
    (hbad : ExtensionState.from_u8 bad.state = none) :
    get_extension_from_acc_data_unchecked S E sought
      (base ++ (S.EXT_START_MARKER ++ regionBytes (es ++ bad :: rest))) =
      .ok none ∧
    get_extension_variants_from_acc_data_uncheked S V
      (base ++ (S.EXT_START_MARKER ++ regionBytes (es ++ bad :: rest))) =
      .ok (some ((es ++ bad :: rest).filterMap (fun e => V e.tag))) := by
  have hblen : base.length = S.len := by rw [hbase]; rfl
  have hmarker : sliceGet
      (base ++ (S.EXT_START_MARKER ++ regionBytes (es ++ bad :: rest)))
      S.len (S.len + S.EXT_START_MARKER.length) = some S.EXT_START_MARKER := by
    unfold sliceGet
    rw [if_pos ⟨by omega, by simp [List.length_append]; omega⟩]
    rw [List.drop_left' hblen,
      show S.len + S.EXT_START_MARKER.length - S.len =
        S.EXT_START_MARKER.length by omega,
      List.take_left]
  have hdropR : (base ++ (S.EXT_START_MARKER ++
      regionBytes (es ++ bad :: rest))).drop
        (S.len + S.EXT_START_MARKER.length) =
      regionBytes (es ++ bad :: rest) := by
    rw [← List.append_assoc]
    exact List.drop_left' (by simp [hblen])
  constructor
  · unfold get_extension_from_acc_data_unchecked
    rw [hmarker]
    dsimp only
    rw [if_pos (by unfold StateExt.check_ext_marker; simp), hdropR,
      regionBytes_append,
      show regionBytes (bad :: rest) = entryBytes bad ++ regionBytes rest from rfl]
    exact scanLoop_region_aborts E sought es bad (regionBytes rest) _
      (fun e he => ⟨(hgood e he).1, (hgood e he).2, hsz e (by simp [he])⟩) hbad
  · unfold get_extension_variants_from_acc_data_uncheked
    rw [hmarker]
    dsimp only
    rw [if_pos (by unfold StateExt.check_ext_marker; simp), hdropR,
      variantsLoop_region V _ [] hsz]
    simp

theorem c5_targeted_strict_enumeration_lenient_witness :
    get_extension_from_acc_data_unchecked sWit eWit 5
      [0, 0, 1, 2, 3, 4, 5, 6, 7, 8,
        6, 0, 1, 0, 1,
        5, 7, 2, 0, 10, 20,
        5, 0, 2, 0, 10, 20] = .ok none ∧
    get_extension_variants_from_acc_data_uncheked sWit (fun t => some t)
      [0, 0, 1, 2, 3, 4, 5, 6, 7, 8,
        6, 0, 1, 0, 1,
        5, 7, 2, 0, 10, 20,
        5, 0, 2, 0, 10, 20] = .ok (some [6, 5, 5]) :=
  c5_targeted_strict_enumeration_lenient sWit eWit 5 (fun t => some t)
    [0, 0] [⟨6, 0, [1]⟩] [⟨5, 0, [10, 20]⟩] ⟨5, 7, [10, 20]⟩
    rfl (by decide) (by decide) rfl

end StateExtensions
